import Mathlib

/-!
Verification of the whisp push-to-talk recorder service
(`code-refactor-sugg/recorder_service_final.py` and its collaborators
`device/transcription.py`, `device/realtime_bridge.py`, `device/database.py`).

The development shallowly embeds the windowing worker, the per-window
transcription router, the realtime-bridge event handling and the public
`stop` / `last_error` entry points as executable Lean functions, and proves
the specification claims about them.
-/

namespace Whisp

/-! ## Windowing pipeline (`RecorderService._stream_worker`)

`_stream_worker` keeps a growing sample buffer.  For every incoming frame it
appends the frame, then, while the buffer holds at least `window_samples`
samples, emits a window of exactly `window_samples` samples, advances the
buffer by `hop_samples` and increments `chunk_index`.  After the stream stops
it emits one final drain window from the remaining buffer iff the buffer
holds at least `window_samples // 2` samples.

Only the sample *counts* matter for the claims, so a frame is embedded as its
sample count and a window as the pair `(chunk_index, sample count)`.
`window_samples` and `hop_samples` are built with `max 1 (...)` exactly as in
the source (`max(1, int(self._window_seconds * sample_rate))`), so both are
positive; the guard of `sliceWindows` records this so that the recursion is
well founded. -/

/-- One pass of the inner `while buffer.shape[0] >= window_samples` loop:
returns the emitted `(chunk_index, length)` windows, the next chunk index and
the remaining buffer length. -/
def sliceWindows (window hop idx buf : ℕ) : List (ℕ × ℕ) × ℕ × ℕ :=
  if _h : 0 < window ∧ 0 < hop ∧ window ≤ buf then
    let rest := sliceWindows window hop (idx + 1) (buf - hop)
    ((idx, window) :: rest.1, rest.2.1, rest.2.2)
  else
    ([], idx, buf)
termination_by buf
decreasing_by
  simp_wf
  omega

/-- The outer frame loop of `_stream_worker`: each frame is appended to the
buffer and the inner window loop runs. -/
def runFrames (window hop : ℕ) : ℕ → ℕ → List ℕ → List (ℕ × ℕ) × ℕ × ℕ
  | idx, buf, [] => ([], idx, buf)
  | idx, buf, f :: fs =>
    let s := sliceWindows window hop idx (buf + f)
    let r := runFrames window hop s.2.1 s.2.2 fs
    (s.1 ++ r.1, r.2.1, r.2.2)

/-- Whole worker: frame loop followed by the drain step
(`if buffer.shape[0] >= min_samples` with `min_samples = window_samples // 2`). -/
def streamWorker (window hop : ℕ) (frames : List ℕ) : List (ℕ × ℕ) :=
  let r := runFrames window hop 0 0 frames
  if window / 2 ≤ r.2.2 then r.1 ++ [(r.2.1, r.2.2)] else r.1

/-- `recorder.DEFAULT_SAMPLE_RATE` (the refactored recorder module). -/
def DEFAULT_SAMPLE_RATE : ℕ := 16000

/-- `RecorderService._window_seconds`. -/
def WINDOW_SECONDS : ℚ := 4

/-- `RecorderService._hop_seconds`. -/
def HOP_SECONDS : ℚ := 2

/-- `window_samples = max(1, int(self._window_seconds * sample_rate))`. -/
def windowSamples : ℕ := max 1 (Int.toNat ⌊WINDOW_SECONDS * DEFAULT_SAMPLE_RATE⌋)

/-- `hop_samples = max(1, int(self._hop_seconds * sample_rate))`. -/
def hopSamples : ℕ := max 1 (Int.toNat ⌊HOP_SECONDS * DEFAULT_SAMPLE_RATE⌋)

/-- The worker at the service's configuration. -/
def serviceWindows (frames : List ℕ) : List (ℕ × ℕ) :=
  streamWorker windowSamples hopSamples frames

/-- `start_ms = (chunk_index * hop_samples / sample_rate) * 1000`
(`RecorderService._process_window`). -/
def startMsW (w : ℕ × ℕ) : ℚ :=
  ((w.1 * hopSamples : ℕ) : ℚ) / (DEFAULT_SAMPLE_RATE : ℚ) * 1000

/-- `end_ms = ((chunk_index * hop_samples + data.shape[0]) / sample_rate) * 1000`. -/
def endMsW (w : ℕ × ℕ) : ℚ :=
  ((w.1 * hopSamples + w.2 : ℕ) : ℚ) / (DEFAULT_SAMPLE_RATE : ℚ) * 1000

/-! ## Batch transcription (`device/transcription.py`, `transcribe_live_chunk`)

The provider side (`transcripter_redline.transcribe_whisper_file`) is an
external call; its observable behaviours at the `transcribe_live_chunk` call
site are: the module is missing (`transcripter_redline is None`), the call
raises, or the call returns a raw string.  `transcribe_live_chunk` is a pure
function of that behaviour. -/

/-- Observable behaviour of the transcription provider for one chunk. -/
inductive ProviderResult where
  | unavailable : ProviderResult
  | raised : String → ProviderResult
  | returned : String → ProviderResult
deriving DecidableEq

/-- `Path(audio_path).name`: the final path component. -/
def pathName (p : String) : String := (p.splitOn "/").getLastD p

/-- Python `str.strip()`: drop leading and trailing whitespace. -/
def pyStrip (s : String) : String :=
  String.mk (((s.toList.dropWhile Char.isWhitespace).reverse.dropWhile
    Char.isWhitespace).reverse)

/-- `transcribe_live_chunk(audio_path, prompt_text)`: returns
`(text, mocked)`.  The prompt is forwarded to the provider and does not
influence which branch is taken. -/
def transcribe_live_chunk (audioPath : String) (promptText : Option String)
    (provider : ProviderResult) : String × Bool :=
  match provider with
  | .unavailable => ("[Transcript unavailable for " ++ pathName audioPath ++ "]", true)
  | .raised msg => ("[transcription error: " ++ msg ++ "]", true)
  | .returned raw =>
    let transcript := pyStrip raw
    if transcript = "" then ("[Empty transcript]", true)
    else (transcript, false)

/-! ## Per-window routing and realtime events

The joint behaviour of `RecorderService._process_window`,
`RecorderService._handle_realtime_transcript` and
`RealtimeBridge._event_loop` during one session is embedded as a state
machine: the inputs are the windows reaching `_process_window` (in
chunk_index order, as produced by the single windowing worker) interleaved
with the transcript events consumed by the bridge's event loop. -/

/-- Metadata attached to a realtime response.  `send_window` builds it from
typed values and `_handle_realtime_transcript` parses it back; it is
embedded as the typed record.  An absent `recording_id` (as in the default
metadata of `_event_loop`'s `done` branch) is `none`, and the numeric
fields default to `0` exactly as `metadata.get("chunk_index", "0")` etc.
default. -/
structure RtMetadata where
  recording_id : Option String
  chunk_index : ℕ
  start_ms : ℚ
  end_ms : ℚ
deriving DecidableEq

/-- The default `_ResponseState(metadata={})` used when a `done` event
arrives for an untracked response id. -/
def emptyMetadata : RtMetadata := ⟨none, 0, 0, 0⟩

/-- One row of the `live_segments` table (`device/database.py`,
`LiveSegment`); `mocked` and `finalized` default to `False`. -/
structure Segment where
  recording_id : String
  chunk_index : ℕ
  start_ms : ℚ
  end_ms : ℚ
  text : String
  mocked : Bool
  finalized : Bool
deriving DecidableEq

/-- Outcome of one `RealtimeBridge.send_window` call as observed by
`_process_window`: `streamed` (returned `True`), `tooShort` (returned
`False`), `errored` (raised `RealtimeBridgeError`). -/
inductive SendOutcome where
  | streamed
  | tooShort
  | errored
deriving DecidableEq

/-- How the batch transcription of one window behaves: either
`transcribe_live_chunk` runs against a provider behaviour, or some other
exception escapes into `_process_window`'s own `except` clause. -/
inductive BatchBehavior where
  | viaProvider : ProviderResult → BatchBehavior
  | outerRaised : String → BatchBehavior
deriving DecidableEq

/-- The events a session processes, in order: a window reaching
`_process_window` (with its sample count, the bridge behaviour were it
consulted and the batch behaviour were the batch path taken), and the three
transcript-bearing realtime events consumed by
`RealtimeBridge._event_loop`. -/
inductive SessionEvent where
  | win : ℕ → SendOutcome → BatchBehavior → SessionEvent
  | rtCreated : String → RtMetadata → SessionEvent
  | rtDelta : String → String → SessionEvent
  | rtDone : String → String → SessionEvent
deriving DecidableEq

/-- Joint state of `RecorderService` and its `RealtimeBridge` during one
session.  `sendAttempts`, `batchCalls` and `disableCount` are observation
ghosts recording, respectively, the chunk indices for which `send_window`
was invoked, the `(chunk_index, prompt_text)` arguments of the
`transcribe_live_chunk` invocations, and how often
`_disable_realtime_bridge` ran from `_process_window`. -/
structure SessionState where
  currentRecordingId : Option String
  bridgeActive : Bool
  nextChunk : ℕ
  promptText : Option String
  realtimeTail : String
  segments : List Segment
  responses : List (String × RtMetadata × String)
  sendAttempts : List ℕ
  batchCalls : List (ℕ × Option String)
  disableCount : ℕ
deriving DecidableEq

/-- The bounded-suffix append rule used for both prompt tails:
`merged = f"{tail} {text}".strip()`, truncated to its last 2500 characters
when longer. -/
def boundedMerge (tail text : String) : String :=
  let merged := pyStrip (tail ++ " " ++ text)
  if 2500 < merged.length then String.mk (merged.toList.drop (merged.length - 2500))
  else merged

/-- Zero-padding of `f"chunk-{chunk_index:05d}.wav"`. -/
def pad5 (n : ℕ) : String :=
  let s := toString n
  String.mk (List.replicate (5 - s.length) '0') ++ s

/-- The temp file written for a batch chunk. -/
def chunkFileName (idx : ℕ) : String := "chunk-" ++ pad5 idx ++ ".wav"

/-- `_disable_realtime_bridge`: stop the bridge (which clears its pending
responses), drop it, and reset the streaming prompt tail. -/
def disableBridge (st : SessionState) : SessionState :=
  { st with
      bridgeActive := false
      responses := []
      realtimeTail := ""
      disableCount := st.disableCount + 1 }

/-- Text and mocked flag produced by the batch attempt of one window
(`text, mocked = transcribe_live_chunk(...)` inside `try/except`). -/
def batchText (audioPath : String) (prompt : Option String) :
    BatchBehavior → String × Bool
  | .viaProvider p => transcribe_live_chunk audioPath prompt p
  | .outerRaised msg => ("[transcription error: " ++ msg ++ "]", true)

/-- Batch tail of `_process_window`: transcribe the written chunk, persist a
`LiveSegment` (with the table's `finalized=False` default), and update the
worker's `prompt_text` (unchanged when the text is empty, else the bounded
merge of `prompt_text or ''` and the text). -/
def batchPath (recordingId : String) (st : SessionState) (idx : ℕ)
    (start_ms end_ms : ℚ) (b : BatchBehavior) : SessionState :=
  let r := batchText (chunkFileName idx) st.promptText b
  let segments := st.segments ++
    [⟨recordingId, idx, start_ms, end_ms, r.1, r.2, false⟩]
  let prompt := if r.1 = "" then st.promptText
    else some (boundedMerge (st.promptText.getD "") r.1)
  { st with
      segments := segments
      promptText := prompt
      batchCalls := st.batchCalls ++ [(idx, st.promptText)]
      nextChunk := idx + 1 }

/-- `_process_window` plus the `prompt_text = ...; chunk_index += 1` done by
`_stream_worker` around it: compute the window timing, try the streaming
channel when a bridge is attached (on success the call returns
`_current_prompt_tail()`, on `RealtimeBridgeError` the bridge is disabled),
otherwise fall to the batch path. -/
def winStartMs (rate hop idx : ℕ) : ℚ :=
  ((idx * hop : ℕ) : ℚ) / (rate : ℚ) * 1000

def winEndMs (rate hop idx dataLen : ℕ) : ℚ :=
  ((idx * hop + dataLen : ℕ) : ℚ) / (rate : ℚ) * 1000

def processWin (rate hop : ℕ) (recordingId : String) (st : SessionState)
    (dataLen : ℕ) (outcome : SendOutcome) (b : BatchBehavior) : SessionState :=
  let idx := st.nextChunk
  let start_ms : ℚ := winStartMs rate hop idx
  let end_ms : ℚ := winEndMs rate hop idx dataLen
  if st.bridgeActive then
    let st1 := { st with sendAttempts := st.sendAttempts ++ [idx] }
    match outcome with
    | .streamed =>
      { st1 with promptText := some st1.realtimeTail, nextChunk := idx + 1 }
    | .tooShort => batchPath recordingId st1 idx start_ms end_ms b
    | .errored =>
      batchPath recordingId (disableBridge st1) idx start_ms end_ms b
  else
    batchPath recordingId st idx start_ms end_ms b

/-- The keyed upsert of `_handle_realtime_transcript`: update the row with
key `(recording_id, chunk_index)` in place, or add a fresh row (not mocked,
finalized as given). -/
def upsertSegment (segs : List Segment) (rid : String) (ci : ℕ)
    (s e : ℚ) (t : String) (f : Bool) : List Segment :=
  match segs with
  | [] => [⟨rid, ci, s, e, t, false, f⟩]
  | seg :: rest =>
    if seg.recording_id = rid ∧ seg.chunk_index = ci then
      { seg with
          start_ms := s
          end_ms := e
          text := t
          mocked := false
          finalized := f } :: rest
    else seg :: upsertSegment rest rid ci s e t f

/-- `_handle_realtime_transcript(metadata, text, finalized)`: drop events
without a matching current recording id; substitute the placeholder for an
empty finalized text; upsert the segment; append to the streaming prompt
tail only for finalized, non-empty cleaned text. -/
def handleRealtimeTranscript (st : SessionState) (meta : RtMetadata)
    (text : String) (finalized : Bool) : SessionState :=
  match meta.recording_id with
  | none => st
  | some rid =>
    if rid = "" ∨ st.currentRecordingId ≠ some rid then st
    else
      let cleaned0 := pyStrip text
      let cleaned := if finalized ∧ cleaned0 = "" then "[Empty transcript]"
        else cleaned0
      let segments := upsertSegment st.segments rid meta.chunk_index
        meta.start_ms meta.end_ms cleaned finalized
      let tail := if finalized ∧ cleaned ≠ ""
        then boundedMerge st.realtimeTail cleaned
        else st.realtimeTail
      { st with segments := segments, realtimeTail := tail }

def lookupResponse :
    List (String × RtMetadata × String) → String → Option (RtMetadata × String)
  | [], _ => none
  | (r, m, t) :: rest, rid =>
    if r = rid then some (m, t) else lookupResponse rest rid

/-- `self._responses[rid] = _ResponseState(metadata)` (dict insert,
replacing in place). -/
def insertResponse :
    List (String × RtMetadata × String) → String → RtMetadata →
      List (String × RtMetadata × String)
  | [], rid, m => [(rid, m, "")]
  | (r, m0, t) :: rest, rid, m =>
    if r = rid then (rid, m, "") :: rest
    else (r, m0, t) :: insertResponse rest rid m

/-- `state.text += delta` on the tracked response. -/
def setResponseText :
    List (String × RtMetadata × String) → String → String →
      List (String × RtMetadata × String)
  | [], _, _ => []
  | (r, m, t) :: rest, rid, txt =>
    if r = rid then (r, m, txt) :: rest
    else (r, m, t) :: setResponseText rest rid txt

/-- `self._responses.pop(rid, _ResponseState(metadata={}))`. -/
def popResponse :
    List (String × RtMetadata × String) → String →
      List (String × RtMetadata × String) × RtMetadata × String
  | [], _ => ([], emptyMetadata, "")
  | (r, m, t) :: rest, rid =>
    if r = rid then (rest, m, t)
    else
      let p := popResponse rest rid
      ((r, m, t) :: p.1, p.2.1, p.2.2)

/-- One transcript-bearing event of `RealtimeBridge._event_loop`:
`response.created` tracks the response; `response.output_text.delta`
appends to its text and emits non-finalized; `response.output_text.done`
pops it (defaulting to empty metadata), prefers the event's final text and
emits finalized. -/
def processRtEvent (st : SessionState) : SessionEvent → SessionState
  | .rtCreated rid meta =>
    { st with responses := insertResponse st.responses rid meta }
  | .rtDelta rid delta =>
    if rid = "" then st
    else
      match lookupResponse st.responses rid with
      | none => st
      | some (meta, text) =>
        let text1 := text ++ delta
        let st1 := { st with responses := setResponseText st.responses rid text1 }
        handleRealtimeTranscript st1 meta text1 false
  | .rtDone rid text =>
    if rid = "" then st
    else
      let p := popResponse st.responses rid
      let finalText := if text = "" then p.2.2 else text
      handleRealtimeTranscript { st with responses := p.1 } p.2.1 finalText true
  | .win _ _ _ => st

/-- One step of the joint session behaviour.  The bridge's event loop only
consumes events while the bridge is attached and running, so realtime events
are inert once the bridge has been disabled. -/
def sessionStep (rate hop : ℕ) (recordingId : String) (st : SessionState) :
    SessionEvent → SessionState
  | .win dataLen outcome b => processWin rate hop recordingId st dataLen outcome b
  | e => if st.bridgeActive then processRtEvent st e else st

/-- Per-session initial state (`start()` resets the prompt tails, stores the
fresh recording id and starts the workers at chunk 0). -/
def initialState (recordingId : String) (bridge : Bool) : SessionState :=
  ⟨some recordingId, bridge, 0, none, "", [], [], [], [], 0⟩

def runSteps (rate hop : ℕ) (recordingId : String) (st : SessionState)
    (evs : List SessionEvent) : SessionState :=
  evs.foldl (sessionStep rate hop recordingId) st

def runSession (rate hop : ℕ) (recordingId : String) (bridge : Bool)
    (evs : List SessionEvent) : SessionState :=
  runSteps rate hop recordingId (initialState recordingId bridge) evs

/-- `_finalize_segments(recording_id)`: the bulk `finalized=True` update run
by `stop()`. -/
def finalizeSegments (rid : String) (segs : List Segment) : List Segment :=
  segs.map fun s =>
    if s.recording_id = rid then { s with finalized := true } else s

/-- The window outcomes of an event list, in order; position `k` in this
list is the window with chunk_index `k` when the run starts at chunk 0. -/
def winOutcomes : List SessionEvent → List SendOutcome
  | [] => []
  | .win _ o _ :: rest => o :: winOutcomes rest
  | .rtCreated _ _ :: rest => winOutcomes rest
  | .rtDelta _ _ :: rest => winOutcomes rest
  | .rtDone _ _ :: rest => winOutcomes rest

/-- A concrete session for the C2 witness: the first window streams, the
second raises a channel error, the third would be short. -/
def evsC2 : List SessionEvent :=
  [.win 64000 .streamed (.viaProvider (.returned "a")),
   .win 64000 .errored (.viaProvider (.returned "b")),
   .win 64000 .tooShort (.viaProvider (.returned "c"))]

/-- Metadata of the first realtime response in the C3 counterexample
session. -/
def metaR0 : RtMetadata := ⟨some "rec", 0, 0, 4000⟩

/-- C3 counterexample session: window 0 streams, its finalized transcript
"hello" arrives, window 1 streams, window 2 is rejected as too short and
falls to the batch path. -/
def evsC3 : List SessionEvent :=
  [.win 64000 .streamed (.viaProvider (.returned "x")),
   .rtCreated "r0" metaR0,
   .rtDone "r0" "hello",
   .win 64000 .streamed (.viaProvider (.returned "y")),
   .win 100 .tooShort (.viaProvider (.returned "ok"))]

/-! ### Batch-path segments (claims C4, C5) -/

/-- Batch-only window event lists. -/
def mkWins : List (ℕ × SendOutcome × BatchBehavior) → List SessionEvent
  | [] => []
  | (len, o, b) :: ws => .win len o b :: mkWins ws

/-- The segment row `_process_window`'s batch path creates for chunk `idx`
of length `len` under batch behaviour `b` (the `finalized` column keeps its
`False` default). -/
def batchSegmentAt (rate hop : ℕ) (rid : String) (idx len : ℕ)
    (b : BatchBehavior) : Segment :=
  ⟨rid, idx, winStartMs rate hop idx, winEndMs rate hop idx len,
    (batchText (chunkFileName idx) none b).1,
    (batchText (chunkFileName idx) none b).2, false⟩

/-- The rows a batch-only run creates, one per window, indices from `idx`. -/
def expectedBatchSegments (rate hop : ℕ) (rid : String) (idx : ℕ) :
    List (ℕ × SendOutcome × BatchBehavior) → List Segment
  | [] => []
  | (len, _, b) :: ws =>
    batchSegmentAt rate hop rid idx len b ::
      expectedBatchSegments rate hop rid (idx + 1) ws

/-! ## `RecorderService.stop` and `last_error` (claims C7, C10)

The public entry points act on the service's mutable fields under its lock;
the fields read or written by `stop()`'s no-thread dispatch and by
`last_error()` are embedded as a record. -/

/-- Mutable `RecorderService` fields.  `threadAlive` is `none` when
`self._thread is None`, otherwise `some aliveness`. -/
structure RecorderState where
  threadAlive : Option Bool
  lastResult : Option (String × String)
  lastError : Option String
  currentRecordingId : Option String
  streamDeadline : Option ℚ
  realtimePromptTail : String
  virtualSpace : Bool
  virtualBackspace : Bool
deriving DecidableEq

/-- What `stop()` does before any join: raise `RuntimeError(cached_error)`,
return the cached result, raise `RecorderIdleError`, or proceed to the
thread-joining path (present thread). -/
inductive StopOutcome where
  | raisedRuntime : String → StopOutcome
  | returnedCached : String × String → StopOutcome
  | raisedIdle : StopOutcome
  | proceedsToJoin : StopOutcome
deriving DecidableEq

/-- The `if not thread:` dispatch at the head of `stop()`, together with the
state it leaves behind. -/
def stopDispatch (s : RecorderState) : StopOutcome × RecorderState :=
  match s.threadAlive with
  | some _ => (.proceedsToJoin, s)
  | none =>
    match s.lastError with
    | some e =>
      (.raisedRuntime e,
        { s with lastError := none, currentRecordingId := none })
    | none =>
      match s.lastResult with
      | some r =>
        (.returnedCached r,
          { s with lastResult := none, currentRecordingId := none })
      | none => (.raisedIdle, s)

/-- `status()`: "recording" iff a live thread exists. -/
def statusOf (s : RecorderState) : String :=
  if s.threadAlive = some true then "recording" else "idle"

/-- `last_error()`: read the stored error and clear it, atomically. -/
def last_error (s : RecorderState) : Option String × RecorderState :=
  (s.lastError, { s with lastError := none })

/-! ### Shape of the emitted window list -/

theorem sliceWindows_spec (window hop : ℕ) :
    ∀ buf idx, ∃ m,
      (sliceWindows window hop idx buf).1 =
        (List.range' idx m).map (fun i => (i, window)) ∧
      (sliceWindows window hop idx buf).2.1 = idx + m := by
  intro buf
  induction buf using Nat.strong_induction_on with
  | _ buf ih =>
    intro idx
    rw [sliceWindows]
    by_cases h : 0 < window ∧ 0 < hop ∧ window ≤ buf
    · obtain ⟨m, hm1, hm2⟩ := ih (buf - hop) (by omega) (idx + 1)
      refine ⟨m + 1, ?_, ?_⟩
      · simp only [dif_pos h, hm1, List.range'_succ, List.map_cons]
      · simp only [dif_pos h, hm2]
        omega
    · exact ⟨0, by simp [dif_neg h], by simp [dif_neg h]⟩

theorem runFrames_spec (window hop : ℕ) :
    ∀ (frames : List ℕ) (idx buf : ℕ), ∃ m,
      (runFrames window hop idx buf frames).1 =
        (List.range' idx m).map (fun i => (i, window)) ∧
      (runFrames window hop idx buf frames).2.1 = idx + m := by
  intro frames
  induction frames with
  | nil => intro idx buf; exact ⟨0, rfl, rfl⟩
  | cons f fs ih =>
    intro idx buf
    obtain ⟨m1, h11, h12⟩ := sliceWindows_spec window hop (buf + f) idx
    obtain ⟨m2, h21, h22⟩ :=
      ih (sliceWindows window hop idx (buf + f)).2.1
        (sliceWindows window hop idx (buf + f)).2.2
    refine ⟨m2 + m1, ?_, ?_⟩
    · simp only [runFrames]
      rw [h11, h21, h12, ← List.map_append, List.range'_append_1]
    · simp only [runFrames]
      rw [h22, h12]
      omega

/-- Every run of the worker produces either `N` full windows indexed
`0..N-1`, or `N` full windows followed by one drain window of index `N` whose
length is at least `window / 2`. -/
theorem streamWorker_shape (window hop : ℕ) (frames : List ℕ) :
    ∃ n,
      streamWorker window hop frames =
        (List.range' 0 n).map (fun i => (i, window)) ∨
      ∃ b, window / 2 ≤ b ∧
        streamWorker window hop frames =
          (List.range' 0 n).map (fun i => (i, window)) ++ [(n, b)] := by
  obtain ⟨m, h1, h2⟩ := runFrames_spec window hop frames 0 0
  refine ⟨m, ?_⟩
  unfold streamWorker
  by_cases h : window / 2 ≤ (runFrames window hop 0 0 frames).2.2
  · right
    exact ⟨(runFrames window hop 0 0 frames).2.2, h, by
      simp only [if_pos h, h1, h2]
      simp⟩
  · left
    simp only [if_neg h, h1]

/-- Element-level description of a worker run at the service configuration:
there is an `n` such that positions `0..n-1` hold full windows `(i,
windowSamples)`, and the list either ends there or carries one drain window
`(n, b)` with `windowSamples / 2 ≤ b`. -/
theorem serviceWindows_spec (frames : List ℕ) :
    ∃ n,
      (∀ i, i < n → (serviceWindows frames)[i]? = some (i, windowSamples)) ∧
      ((serviceWindows frames).length = n ∨
        ∃ b, windowSamples / 2 ≤ b ∧
          (serviceWindows frames).length = n + 1 ∧
          (serviceWindows frames)[n]? = some (n, b)) := by
  obtain ⟨n, h | ⟨b, hb, h⟩⟩ := streamWorker_shape windowSamples hopSamples frames
  · refine ⟨n, ?_, Or.inl ?_⟩
    · intro i hi
      rw [serviceWindows, h, List.getElem?_map, List.getElem?_range' 0 1 hi]
      simp
    · rw [serviceWindows, h]
      simp
  · refine ⟨n, ?_, Or.inr ⟨b, hb, ?_, ?_⟩⟩
    · intro i hi
      rw [serviceWindows, h, List.getElem?_append_left
        (by simpa using hi), List.getElem?_map, List.getElem?_range' 0 1 hi]
      simp
    · rw [serviceWindows, h]
      simp
    · rw [serviceWindows, h, List.getElem?_append_right (by simp)]
      simp

/-- C1: the windowing worker assigns chunk_index values forming exactly the
sequence `0..N-1`: consecutive, no gaps, no reuse, the drain window (when
emitted) continuing the same sequence, for every way the incoming frames are
grouped. -/
theorem C1_chunk_indices_exact_range (window hop : ℕ) (frames : List ℕ) :
    (streamWorker window hop frames).map Prod.fst =
      List.range (streamWorker window hop frames).length := by
  obtain ⟨n, h | ⟨b, hb, h⟩⟩ := streamWorker_shape window hop frames
  · rw [h]
    simp [List.map_map, Function.comp_def, List.range_eq_range']
  · rw [h]
    simp [List.map_map, Function.comp_def, List.range_succ,
      List.range_eq_range']

/-- Witness for C1 at a concrete run. -/
theorem C1_chunk_indices_exact_range_witness :
    (streamWorker 4 2 [5]).map Prod.fst =
      List.range (streamWorker 4 2 [5]).length :=
  C1_chunk_indices_exact_range 4 2 [5]

/-! ### Window timing (claim C6) -/

theorem windowSamples_eq : windowSamples = 64000 := by
  norm_num [windowSamples, WINDOW_SECONDS, DEFAULT_SAMPLE_RATE]
  rfl

theorem hopSamples_eq : hopSamples = 32000 := by
  norm_num [hopSamples, HOP_SECONDS, DEFAULT_SAMPLE_RATE]
  rfl

theorem startMsW_eq (w : ℕ × ℕ) : startMsW w = 2000 * w.1 := by
  rw [startMsW, hopSamples_eq, DEFAULT_SAMPLE_RATE]
  push_cast
  ring

theorem endMsW_eq (w : ℕ × ℕ) : endMsW w = 2000 * w.1 + (w.2 : ℚ) / 16 := by
  rw [endMsW, hopSamples_eq, DEFAULT_SAMPLE_RATE]
  push_cast
  ring

theorem sliceWindows_stop {window hop idx buf : ℕ} (h : buf < window) :
    sliceWindows window hop idx buf = ([], idx, buf) := by
  rw [sliceWindows, dif_neg (by omega)]

theorem sliceWindows_step {window hop idx buf : ℕ}
    (h1 : 0 < window) (h2 : 0 < hop) (h3 : window ≤ buf) :
    sliceWindows window hop idx buf =
      ((idx, window) :: (sliceWindows window hop (idx + 1) (buf - hop)).1,
        (sliceWindows window hop (idx + 1) (buf - hop)).2.1,
        (sliceWindows window hop (idx + 1) (buf - hop)).2.2) := by
  rw [sliceWindows, dif_pos ⟨h1, h2, h3⟩]

/-- A single 96000-sample burst at the service configuration yields two full
windows and a drain window of exactly half a window. -/
theorem serviceWindows_single_burst :
    serviceWindows [96000] = [(0, 64000), (1, 64000), (2, 32000)] := by
  have hs2 : sliceWindows 64000 32000 2 32000 = ([], 2, 32000) :=
    sliceWindows_stop (by norm_num)
  have hs1 : sliceWindows 64000 32000 1 64000 = ([(1, 64000)], 2, 32000) := by
    rw [sliceWindows_step (by norm_num) (by norm_num) (by norm_num)]
    norm_num [hs2]
  have hs0 : sliceWindows 64000 32000 0 96000 =
      ([(0, 64000), (1, 64000)], 2, 32000) := by
    rw [sliceWindows_step (by norm_num) (by norm_num) (by norm_num)]
    norm_num [hs1]
  rw [serviceWindows, windowSamples_eq, hopSamples_eq]
  simp only [streamWorker, runFrames, Nat.zero_add, hs0]
  norm_num

/-- C6 counterexample: on a 96000-sample session the drain window is exactly
half a window, and its `end_ms` equals the previous window's `end_ms`
(6000 ms for both chunk 1 and chunk 2), so `end_ms` does not strictly
increase with chunk_index. -/
theorem C6_counterexample_endms_tie :
    serviceWindows [96000] = [(0, 64000), (1, 64000), (2, 32000)] ∧
    endMsW (1, 64000) = 6000 ∧
    endMsW (2, 32000) = 6000 ∧
    ¬ endMsW (1, 64000) < endMsW (2, 32000) := by
  refine ⟨serviceWindows_single_burst, ?_, ?_, ?_⟩ <;> norm_num [endMsW_eq]

/-- C6 (amended): for every emitted window, `start_ms`/`end_ms` are computed
from `chunk_index * hop_samples` at the session rate; every window but the
last is a full window with `end_ms - start_ms = window_seconds * 1000`
exactly; every emitted window (the drain window included) holds at least
`window_samples / 2` samples, a shorter remainder being discarded; and with
chunk_index `start_ms` strictly increases while `end_ms` is nondecreasing
(strict except for the half-window drain tie). -/
theorem C6_amended_window_timing (frames : List ℕ) :
    (∀ (i : ℕ) (w : ℕ × ℕ), (serviceWindows frames)[i]? = some w →
      w.1 = i ∧
      startMsW w = ((i * hopSamples : ℕ) : ℚ) / (DEFAULT_SAMPLE_RATE : ℚ) * 1000 ∧
      windowSamples / 2 ≤ w.2) ∧
    (∀ (i : ℕ) (w : ℕ × ℕ), (serviceWindows frames)[i]? = some w →
      i + 1 < (serviceWindows frames).length →
      w.2 = windowSamples ∧
      endMsW w - startMsW w = WINDOW_SECONDS * 1000) ∧
    (∀ (i j : ℕ) (wi wj : ℕ × ℕ), (serviceWindows frames)[i]? = some wi →
      (serviceWindows frames)[j]? = some wj → i < j →
      startMsW wi < startMsW wj ∧ endMsW wi ≤ endMsW wj) := by
  obtain ⟨n, hfull, hrest⟩ := serviceWindows_spec frames
  have hlen : (serviceWindows frames).length = n ∨
      ∃ b, windowSamples / 2 ≤ b ∧
        (serviceWindows frames).length = n + 1 ∧
        (serviceWindows frames)[n]? = some (n, b) := hrest
  have hmem : ∀ i w, (serviceWindows frames)[i]? = some w →
      (i < n ∧ w = (i, windowSamples)) ∨
      (i = n ∧ windowSamples / 2 ≤ w.2 ∧ w = (n, w.2) ∧
        (serviceWindows frames).length = n + 1) := by
    intro i w hw
    have hilen : i < (serviceWindows frames).length := by
      by_contra hcon
      rw [List.getElem?_eq_none (by omega)] at hw
      exact Option.noConfusion hw
    by_cases hi : i < n
    · left
      refine ⟨hi, ?_⟩
      have := hfull i hi
      rw [hw] at this
      exact Option.some.inj this
    · right
      rcases hlen with hl | ⟨b, hb, hl, hn⟩
      · omega
      · have hieq : i = n := by omega
        subst hieq
        rw [hw] at hn
        have hwb : w = (i, b) := Option.some.inj hn
        subst hwb
        exact ⟨rfl, hb, rfl, hl⟩
  refine ⟨?_, ?_, ?_⟩
  · intro i w hw
    rcases hmem i w hw with ⟨hi, hweq⟩ | ⟨hi, hb, hweq, _⟩
    · subst hweq
      exact ⟨rfl, rfl, Nat.div_le_self _ _⟩
    · subst hi
      rw [hweq]
      exact ⟨rfl, rfl, hb⟩
  · intro i w hw hi1
    rcases hmem i w hw with ⟨hi, hweq⟩ | ⟨hi, hb, hweq, hl⟩
    · subst hweq
      refine ⟨rfl, ?_⟩
      rw [endMsW_eq, startMsW_eq, windowSamples_eq, WINDOW_SECONDS]
      norm_num
    · subst hi
      rcases hlen with hl' | ⟨b, _, hl', _⟩ <;> omega
  · intro i j wi wj hwi hwj hij
    have hjn : ∀ k (w : ℕ × ℕ), (serviceWindows frames)[k]? = some w → k ≤ n := by
      intro k w hw
      rcases hmem k w hw with ⟨hk, _⟩ | ⟨hk, _⟩ <;> omega
    have hin : i < n := lt_of_lt_of_le hij (hjn j wj hwj)
    rcases hmem i wi hwi with ⟨_, hweqi⟩ | ⟨hi, _⟩
    · subst hweqi
      rcases hmem j wj hwj with ⟨_, hweqj⟩ | ⟨hj, hbj, hweqj, _⟩
      · subst hweqj
        rw [startMsW_eq, startMsW_eq, endMsW_eq, endMsW_eq]
        constructor
        · simp only
          have : (i : ℚ) < (j : ℚ) := by exact_mod_cast hij
          linarith
        · simp only
          have : (i : ℚ) < (j : ℚ) := by exact_mod_cast hij
          linarith
      · subst hj
        rw [hweqj, startMsW_eq, startMsW_eq, endMsW_eq, endMsW_eq]
        have hiq : (i : ℚ) + 1 ≤ (j : ℚ) := by exact_mod_cast hin
        have hbq : (32000 : ℚ) ≤ (wj.2 : ℚ) := by
          rw [windowSamples_eq] at hbj
          exact_mod_cast hbj
        constructor
        · simp only
          linarith
        · simp only [windowSamples_eq]
          push_cast
          linarith
    · omega

/-- Witness for C6 (amended) at a concrete run. -/
theorem C6_amended_window_timing_witness :
    startMsW (0, 64000) < startMsW (1, 64000) ∧
    endMsW (0, 64000) ≤ endMsW (1, 64000) :=
  (C6_amended_window_timing [96000]).2.2 0 1 (0, 64000) (1, 64000)
    (by rw [serviceWindows_single_burst]; rfl)
    (by rw [serviceWindows_single_burst]; rfl)
    (by norm_num)

/-- A string starting with a non-empty literal is non-empty. -/
theorem append3_ne_empty (a b c : String) (h : a.length ≠ 0) : a ++ b ++ c ≠ "" := by
  intro hcon
  have hl := congrArg String.length hcon
  simp [String.length_append] at hl
  omega

/-! ### Step lemmas for the session machine -/

theorem batchPath_fields (rid : String) (st : SessionState) (idx : ℕ)
    (s e : ℚ) (b : BatchBehavior) :
    (batchPath rid st idx s e b).bridgeActive = st.bridgeActive ∧
    (batchPath rid st idx s e b).disableCount = st.disableCount ∧
    (batchPath rid st idx s e b).sendAttempts = st.sendAttempts ∧
    (batchPath rid st idx s e b).batchCalls =
      st.batchCalls ++ [(idx, st.promptText)] ∧
    (batchPath rid st idx s e b).nextChunk = idx + 1 ∧
    (batchPath rid st idx s e b).realtimeTail = st.realtimeTail ∧
    (batchPath rid st idx s e b).currentRecordingId = st.currentRecordingId ∧
    (batchPath rid st idx s e b).responses = st.responses := by
  simp [batchPath]

theorem processWin_inactive (rate hop : ℕ) (rid : String) (st : SessionState)
    (dataLen : ℕ) (o : SendOutcome) (b : BatchBehavior)
    (h : st.bridgeActive = false) :
    processWin rate hop rid st dataLen o b =
      batchPath rid st st.nextChunk (winStartMs rate hop st.nextChunk)
        (winEndMs rate hop st.nextChunk dataLen) b := by
  simp [processWin, h]

theorem processWin_streamed (rate hop : ℕ) (rid : String) (st : SessionState)
    (dataLen : ℕ) (b : BatchBehavior) (h : st.bridgeActive = true) :
    processWin rate hop rid st dataLen .streamed b =
      { st with
          sendAttempts := st.sendAttempts ++ [st.nextChunk]
          promptText := some st.realtimeTail
          nextChunk := st.nextChunk + 1 } := by
  simp [processWin, h]

theorem processWin_tooShort (rate hop : ℕ) (rid : String) (st : SessionState)
    (dataLen : ℕ) (b : BatchBehavior) (h : st.bridgeActive = true) :
    processWin rate hop rid st dataLen .tooShort b =
      batchPath rid { st with sendAttempts := st.sendAttempts ++ [st.nextChunk] }
        st.nextChunk (winStartMs rate hop st.nextChunk)
        (winEndMs rate hop st.nextChunk dataLen) b := by
  simp [processWin, h]

theorem processWin_errored (rate hop : ℕ) (rid : String) (st : SessionState)
    (dataLen : ℕ) (b : BatchBehavior) (h : st.bridgeActive = true) :
    processWin rate hop rid st dataLen .errored b =
      batchPath rid
        (disableBridge { st with sendAttempts := st.sendAttempts ++ [st.nextChunk] })
        st.nextChunk (winStartMs rate hop st.nextChunk)
        (winEndMs rate hop st.nextChunk dataLen) b := by
  simp [processWin, h]

theorem handleRealtimeTranscript_preserves (st : SessionState)
    (meta : RtMetadata) (text : String) (f : Bool) :
    (handleRealtimeTranscript st meta text f).nextChunk = st.nextChunk ∧
    (handleRealtimeTranscript st meta text f).bridgeActive = st.bridgeActive ∧
    (handleRealtimeTranscript st meta text f).sendAttempts = st.sendAttempts ∧
    (handleRealtimeTranscript st meta text f).batchCalls = st.batchCalls ∧
    (handleRealtimeTranscript st meta text f).disableCount = st.disableCount ∧
    (handleRealtimeTranscript st meta text f).promptText = st.promptText ∧
    (handleRealtimeTranscript st meta text f).currentRecordingId =
      st.currentRecordingId := by
  rcases h : meta.recording_id with _ | rid
  · simp [handleRealtimeTranscript, h]
  · by_cases hc : rid = "" ∨ st.currentRecordingId ≠ some rid
    · simp [handleRealtimeTranscript, h, hc]
    · simp [handleRealtimeTranscript, h, hc]

theorem processRtEvent_preserves (st : SessionState) (ev : SessionEvent) :
    (processRtEvent st ev).nextChunk = st.nextChunk ∧
    (processRtEvent st ev).bridgeActive = st.bridgeActive ∧
    (processRtEvent st ev).sendAttempts = st.sendAttempts ∧
    (processRtEvent st ev).batchCalls = st.batchCalls ∧
    (processRtEvent st ev).disableCount = st.disableCount ∧
    (processRtEvent st ev).promptText = st.promptText ∧
    (processRtEvent st ev).currentRecordingId = st.currentRecordingId := by
  rcases ev with ⟨len, o, b⟩ | ⟨rid, meta⟩ | ⟨rid, delta⟩ | ⟨rid, text⟩
  · simp [processRtEvent]
  · simp [processRtEvent]
  · by_cases h : rid = ""
    · simp [processRtEvent, h]
    · simp only [processRtEvent, if_neg h]
      rcases hl : lookupResponse st.responses rid with _ | ⟨m, t⟩
      · simp [hl]
      · simp only [hl]
        exact handleRealtimeTranscript_preserves
          { st with responses := setResponseText st.responses rid (t ++ delta) }
          m (t ++ delta) false
  · by_cases h : rid = ""
    · simp [processRtEvent, h]
    · simp only [processRtEvent, if_neg h]
      exact handleRealtimeTranscript_preserves
        { st with responses := (popResponse st.responses rid).1 }
        (popResponse st.responses rid).2.1
        (if text = "" then (popResponse st.responses rid).2.2 else text) true

/-- Once the bridge is inactive it stays inactive: no further streaming
attempt, no further disable, and every remaining window goes through the
batch transcriber. -/
theorem runSteps_bridge_inactive (rate hop : ℕ) (rid : String) :
    ∀ (evs : List SessionEvent) (st : SessionState),
      st.bridgeActive = false →
      (runSteps rate hop rid st evs).bridgeActive = false ∧
      (runSteps rate hop rid st evs).disableCount = st.disableCount ∧
      (runSteps rate hop rid st evs).sendAttempts = st.sendAttempts ∧
      (∀ p ∈ st.batchCalls, p ∈ (runSteps rate hop rid st evs).batchCalls) ∧
      (∀ i, st.nextChunk ≤ i →
        i < st.nextChunk + (winOutcomes evs).length →
        ∃ p, (i, p) ∈ (runSteps rate hop rid st evs).batchCalls) ∧
      (runSteps rate hop rid st evs).nextChunk =
        st.nextChunk + (winOutcomes evs).length := by
  intro evs
  induction evs with
  | nil =>
    intro st hb
    refine ⟨hb, rfl, rfl, fun p hp => hp, ?_, by simp [runSteps, winOutcomes]⟩
    intro i h1 h2
    simp [winOutcomes] at h2
    omega
  | cons ev evs ih =>
    intro st hb
    rcases ev with ⟨len, o, b⟩ | ⟨rid2, meta⟩ | ⟨rid2, delta⟩ | ⟨rid2, text⟩
    · have hstep : runSteps rate hop rid st (.win len o b :: evs) =
          runSteps rate hop rid
            (batchPath rid st st.nextChunk (winStartMs rate hop st.nextChunk)
              (winEndMs rate hop st.nextChunk len) b) evs := by
        simp [runSteps, sessionStep,
          processWin_inactive rate hop rid st len o b hb]
      obtain ⟨f1, f2, f3, f4, f5, f6, f7, f8⟩ :=
        batchPath_fields rid st st.nextChunk (winStartMs rate hop st.nextChunk)
          (winEndMs rate hop st.nextChunk len) b
      obtain ⟨g1, g2, g3, g4, g5, g6⟩ :=
        ih (batchPath rid st st.nextChunk (winStartMs rate hop st.nextChunk)
          (winEndMs rate hop st.nextChunk len) b) (f1.trans hb)
      have hwl : (winOutcomes (SessionEvent.win len o b :: evs)).length =
          (winOutcomes evs).length + 1 := by
        simp [winOutcomes]
      refine ⟨?_, ?_, ?_, ?_, ?_, ?_⟩
      · rw [hstep]
        exact g1
      · rw [hstep, g2, f2]
      · rw [hstep, g3, f3]
      · intro p hp
        rw [hstep]
        exact g4 p (by rw [f4]; exact List.mem_append_left _ hp)
      · intro i h1 h2
        rw [hstep]
        rw [hwl] at h2
        by_cases hi : i = st.nextChunk
        · subst hi
          exact ⟨st.promptText, g4 _ (by rw [f4]; simp)⟩
        · exact g5 i (by omega) (by omega)
      · rw [hstep, g6, f5, hwl]
        omega
    · have hstep : runSteps rate hop rid st (.rtCreated rid2 meta :: evs) =
          runSteps rate hop rid st evs := by
        simp [runSteps, sessionStep, hb]
      have hw : winOutcomes (SessionEvent.rtCreated rid2 meta :: evs) =
          winOutcomes evs := rfl
      rw [hstep, hw]
      exact ih st hb
    · have hstep : runSteps rate hop rid st (.rtDelta rid2 delta :: evs) =
          runSteps rate hop rid st evs := by
        simp [runSteps, sessionStep, hb]
      have hw : winOutcomes (SessionEvent.rtDelta rid2 delta :: evs) =
          winOutcomes evs := rfl
      rw [hstep, hw]
      exact ih st hb
    · have hstep : runSteps rate hop rid st (.rtDone rid2 text :: evs) =
          runSteps rate hop rid st evs := by
        simp [runSteps, sessionStep, hb]
      have hw : winOutcomes (SessionEvent.rtDone rid2 text :: evs) =
          winOutcomes evs := rfl
      rw [hstep, hw]
      exact ih st hb

/-- Running from an active bridge with the first `send_window` error at
window position `j` (relative to the current chunk counter): the bridge is
disabled exactly once, the erroring window and all later ones go to the
batch transcriber, and no streaming send is attempted after the error. -/
theorem runSteps_until_error (rate hop : ℕ) (rid : String) :
    ∀ (evs : List SessionEvent) (st : SessionState) (j : ℕ),
      st.bridgeActive = true → st.disableCount = 0 →
      (∀ i ∈ st.sendAttempts, i < st.nextChunk) →
      (winOutcomes evs)[j]? = some .errored →
      (∀ i, i < j → (winOutcomes evs)[i]? ≠ some .errored) →
      (runSteps rate hop rid st evs).disableCount = 1 ∧
      (runSteps rate hop rid st evs).bridgeActive = false ∧
      (∀ i, st.nextChunk + j ≤ i →
        i < st.nextChunk + (winOutcomes evs).length →
        ∃ p, (i, p) ∈ (runSteps rate hop rid st evs).batchCalls) ∧
      (∀ i ∈ (runSteps rate hop rid st evs).sendAttempts,
        i ≤ st.nextChunk + j) := by
  intro evs
  induction evs with
  | nil =>
    intro st j _ _ _ hk _
    simp [winOutcomes] at hk
  | cons ev evs ih =>
    intro st j hb hd hs hk hfirst
    rcases ev with ⟨len, o, b⟩ | ⟨rid2, meta⟩ | ⟨rid2, delta⟩ | ⟨rid2, text⟩
    · have hwo : winOutcomes (SessionEvent.win len o b :: evs) =
          o :: winOutcomes evs := rfl
      rw [hwo] at hk hfirst
      have hwl : (winOutcomes (SessionEvent.win len o b :: evs)).length =
          (winOutcomes evs).length + 1 := by
        simp [winOutcomes]
      rcases j with _ | j1
      · have ho : o = .errored := by
          rw [List.getElem?_cons_zero] at hk
          exact Option.some.inj hk
        subst ho
        have hstep : runSteps rate hop rid st (.win len .errored b :: evs) =
            runSteps rate hop rid
              (batchPath rid
                (disableBridge
                  { st with sendAttempts := st.sendAttempts ++ [st.nextChunk] })
                st.nextChunk (winStartMs rate hop st.nextChunk)
                (winEndMs rate hop st.nextChunk len) b) evs := by
          simp [runSteps, sessionStep,
            processWin_errored rate hop rid st len b hb]
        obtain ⟨f1, f2, f3, f4, f5, f6, f7, f8⟩ :=
          batchPath_fields rid
            (disableBridge
              { st with sendAttempts := st.sendAttempts ++ [st.nextChunk] })
            st.nextChunk (winStartMs rate hop st.nextChunk)
            (winEndMs rate hop st.nextChunk len) b
        obtain ⟨g1, g2, g3, g4, g5, g6⟩ :=
          runSteps_bridge_inactive rate hop rid evs
            (batchPath rid
              (disableBridge
                { st with sendAttempts := st.sendAttempts ++ [st.nextChunk] })
              st.nextChunk (winStartMs rate hop st.nextChunk)
              (winEndMs rate hop st.nextChunk len) b)
            (by rw [f1]; simp [disableBridge])
        refine ⟨?_, ?_, ?_, ?_⟩
        · rw [hstep, g2, f2]
          simp [disableBridge, hd]
        · rw [hstep]
          exact g1
        · intro i h1 h2
          rw [hstep]
          rw [hwl] at h2
          by_cases hi : i = st.nextChunk
          · subst hi
            refine ⟨st.promptText, g4 _ ?_⟩
            rw [f4]
            simp [disableBridge]
          · refine g5 i ?_ ?_
            · rw [f5]
              omega
            · rw [f5]
              omega
        · intro i hi
          rw [hstep, g3, f3] at hi
          simp only [disableBridge] at hi
          simp only [List.mem_append, List.mem_singleton] at hi
          rcases hi with hi | hi
          · have := hs i hi
            omega
          · omega
      · have ho : o ≠ .errored := by
          intro hcon
          exact hfirst 0 (Nat.succ_pos j1)
            (by rw [List.getElem?_cons_zero, hcon])
        have hk1 : (winOutcomes evs)[j1]? = some .errored := by
          rw [List.getElem?_cons_succ] at hk
          exact hk
        have hfirst1 : ∀ i, i < j1 →
            (winOutcomes evs)[i]? ≠ some .errored := by
          intro i hi
          have := hfirst (i + 1) (by omega)
          rw [List.getElem?_cons_succ] at this
          exact this
        rcases o with _ | _ | _
        · have hstep : runSteps rate hop rid st (.win len .streamed b :: evs) =
              runSteps rate hop rid
                { st with
                    sendAttempts := st.sendAttempts ++ [st.nextChunk]
                    promptText := some st.realtimeTail
                    nextChunk := st.nextChunk + 1 } evs := by
            simp [runSteps, sessionStep,
              processWin_streamed rate hop rid st len b hb]
          obtain ⟨g1, g2, g3, g4⟩ := ih
            { st with
                sendAttempts := st.sendAttempts ++ [st.nextChunk]
                promptText := some st.realtimeTail
                nextChunk := st.nextChunk + 1 } j1 hb hd
            (by
              intro i hi
              simp only [List.mem_append, List.mem_singleton] at hi
              show i < st.nextChunk + 1
              rcases hi with hi | hi
              · have := hs i hi
                omega
              · omega)
            hk1 hfirst1
          have hnc : ({ st with
              sendAttempts := st.sendAttempts ++ [st.nextChunk]
              promptText := some st.realtimeTail
              nextChunk := st.nextChunk + 1 } : SessionState).nextChunk =
            st.nextChunk + 1 := rfl
          refine ⟨?_, ?_, ?_, ?_⟩
          · rw [hstep]
            exact g1
          · rw [hstep]
            exact g2
          · intro i h1 h2
            rw [hstep]
            rw [hwl] at h2
            exact g3 i (by omega) (by omega)
          · intro i hi
            rw [hstep] at hi
            have := g4 i hi
            omega
        · have hstep : runSteps rate hop rid st (.win len .tooShort b :: evs) =
              runSteps rate hop rid
                (batchPath rid
                  { st with sendAttempts := st.sendAttempts ++ [st.nextChunk] }
                  st.nextChunk (winStartMs rate hop st.nextChunk)
                  (winEndMs rate hop st.nextChunk len) b) evs := by
            simp [runSteps, sessionStep,
              processWin_tooShort rate hop rid st len b hb]
          obtain ⟨f1, f2, f3, f4, f5, f6, f7, f8⟩ :=
            batchPath_fields rid
              { st with sendAttempts := st.sendAttempts ++ [st.nextChunk] }
              st.nextChunk (winStartMs rate hop st.nextChunk)
              (winEndMs rate hop st.nextChunk len) b
          obtain ⟨g1, g2, g3, g4⟩ := ih
            (batchPath rid
              { st with sendAttempts := st.sendAttempts ++ [st.nextChunk] }
              st.nextChunk (winStartMs rate hop st.nextChunk)
              (winEndMs rate hop st.nextChunk len) b) j1
            (f1.trans hb) (f2.trans hd)
            (by
              intro i hi
              rw [f3] at hi
              rw [f5]
              simp only [List.mem_append, List.mem_singleton] at hi
              rcases hi with hi | hi
              · have := hs i hi
                omega
              · omega)
            hk1 hfirst1
          refine ⟨?_, ?_, ?_, ?_⟩
          · rw [hstep]
            exact g1
          · rw [hstep]
            exact g2
          · intro i h1 h2
            rw [hstep]
            rw [hwl] at h2
            refine g3 i ?_ ?_
            · rw [f5]
              omega
            · rw [f5]
              omega
          · intro i hi
            rw [hstep] at hi
            have := g4 i hi
            rw [f5] at this
            omega
        · exact absurd rfl ho
    · have hstep : runSteps rate hop rid st (.rtCreated rid2 meta :: evs) =
          runSteps rate hop rid (processRtEvent st (.rtCreated rid2 meta)) evs := by
        simp [runSteps, sessionStep, hb]
      obtain ⟨p1, p2, p3, p4, p5, p6, p7⟩ :=
        processRtEvent_preserves st (.rtCreated rid2 meta)
      obtain ⟨g1, g2, g3, g4⟩ := ih (processRtEvent st (.rtCreated rid2 meta)) j
        (p2.trans hb) (p5.trans hd)
        (by rw [p3, p1]; exact hs) hk (fun i hi => hfirst i hi)
      rw [hstep, show winOutcomes (SessionEvent.rtCreated rid2 meta :: evs) =
        winOutcomes evs from rfl]
      exact ⟨g1, g2, by rw [← p1]; exact g3, by rw [← p1]; exact g4⟩
    · have hstep : runSteps rate hop rid st (.rtDelta rid2 delta :: evs) =
          runSteps rate hop rid (processRtEvent st (.rtDelta rid2 delta)) evs := by
        simp [runSteps, sessionStep, hb]
      obtain ⟨p1, p2, p3, p4, p5, p6, p7⟩ :=
        processRtEvent_preserves st (.rtDelta rid2 delta)
      obtain ⟨g1, g2, g3, g4⟩ := ih (processRtEvent st (.rtDelta rid2 delta)) j
        (p2.trans hb) (p5.trans hd)
        (by rw [p3, p1]; exact hs) hk (fun i hi => hfirst i hi)
      rw [hstep, show winOutcomes (SessionEvent.rtDelta rid2 delta :: evs) =
        winOutcomes evs from rfl]
      exact ⟨g1, g2, by rw [← p1]; exact g3, by rw [← p1]; exact g4⟩
    · have hstep : runSteps rate hop rid st (.rtDone rid2 text :: evs) =
          runSteps rate hop rid (processRtEvent st (.rtDone rid2 text)) evs := by
        simp [runSteps, sessionStep, hb]
      obtain ⟨p1, p2, p3, p4, p5, p6, p7⟩ :=
        processRtEvent_preserves st (.rtDone rid2 text)
      obtain ⟨g1, g2, g3, g4⟩ := ih (processRtEvent st (.rtDone rid2 text)) j
        (p2.trans hb) (p5.trans hd)
        (by rw [p3, p1]; exact hs) hk (fun i hi => hfirst i hi)
      rw [hstep, show winOutcomes (SessionEvent.rtDone rid2 text :: evs) =
        winOutcomes evs from rfl]
      exact ⟨g1, g2, by rw [← p1]; exact g3, by rw [← p1]; exact g4⟩

/-- C2: if `send_window` raises a channel error while processing the window
with chunk_index `k` (no earlier window having raised), the router disables
the channel exactly once, routes window `k` and every later window of the
session through the batch transcriber, and never attempts a streaming send
for any chunk_index beyond `k`. -/
theorem C2_channel_error_fallback (rate hop : ℕ) (rid : String)
    (evs : List SessionEvent) (k : ℕ)
    (hk : (winOutcomes evs)[k]? = some .errored)
    (hfirst : ∀ i, i < k → (winOutcomes evs)[i]? ≠ some .errored) :
    (runSession rate hop rid true evs).disableCount = 1 ∧
    (runSession rate hop rid true evs).bridgeActive = false ∧
    (∀ i, k ≤ i → i < (winOutcomes evs).length →
      ∃ p, (i, p) ∈ (runSession rate hop rid true evs).batchCalls) ∧
    (∀ i ∈ (runSession rate hop rid true evs).sendAttempts, i ≤ k) := by
  obtain ⟨g1, g2, g3, g4⟩ := runSteps_until_error rate hop rid evs
    (initialState rid true) k rfl rfl
    (by intro i hi; simp [initialState] at hi) hk hfirst
  have h0 : (initialState rid true).nextChunk = 0 := rfl
  refine ⟨g1, g2, ?_, ?_⟩
  · intro i h1 h2
    exact g3 i (by omega) (by omega)
  · intro i hi
    have := g4 i hi
    omega

/-- Witness for C2 at a concrete session. -/
theorem C2_channel_error_fallback_witness :
    (runSession 16000 32000 "rec" true evsC2).disableCount = 1 ∧
    (runSession 16000 32000 "rec" true evsC2).bridgeActive = false ∧
    (∀ i, 1 ≤ i → i < (winOutcomes evsC2).length →
      ∃ p, (i, p) ∈ (runSession 16000 32000 "rec" true evsC2).batchCalls) ∧
    (∀ i ∈ (runSession 16000 32000 "rec" true evsC2).sendAttempts, i ≤ 1) :=
  C2_channel_error_fallback 16000 32000 "rec" evsC2 1 (by decide)
    (by
      intro i hi
      interval_cases i
      decide)

/-- A non-finalized (delta) emission never touches the streaming prompt
tail. -/
theorem handleRealtimeTranscript_tail_nonfinal (st : SessionState)
    (meta : RtMetadata) (text : String) :
    (handleRealtimeTranscript st meta text false).realtimeTail =
      st.realtimeTail := by
  rcases h : meta.recording_id with _ | rid
  · simp [handleRealtimeTranscript, h]
  · by_cases hc : rid = "" ∨ st.currentRecordingId ≠ some rid
    · simp [handleRealtimeTranscript, h, hc]
    · simp [handleRealtimeTranscript, h, hc]

/-- A finalized emission either leaves the streaming prompt tail unchanged
(mismatched recording id) or appends a non-empty cleaned text by the
bounded-suffix rule. -/
theorem handleRealtimeTranscript_tail_final (st : SessionState)
    (meta : RtMetadata) (text : String) :
    (handleRealtimeTranscript st meta text true).realtimeTail =
      st.realtimeTail ∨
    ∃ c, c ≠ "" ∧
      (handleRealtimeTranscript st meta text true).realtimeTail =
        boundedMerge st.realtimeTail c := by
  rcases h : meta.recording_id with _ | rid
  · left
    simp [handleRealtimeTranscript, h]
  · by_cases hc : rid = "" ∨ st.currentRecordingId ≠ some rid
    · left
      simp [handleRealtimeTranscript, h, hc]
    · right
      refine ⟨if pyStrip text = "" then "[Empty transcript]" else pyStrip text, ?_, ?_⟩
      · by_cases ht : pyStrip text = ""
        · rw [if_pos ht]
          decide
        · rw [if_neg ht]
          exact ht
      · simp only [handleRealtimeTranscript, h, if_neg hc, true_and]
        by_cases ht : pyStrip text = ""
        · simp [ht]
        · simp [ht]

/-- C3 (amended): across any single step of the session, the streaming
prompt tail is either unchanged, reset to empty (only the disable path does
this), or extended by the bounded-suffix rule with a non-empty cleaned text
-- and the last case happens only on a finalized (`done`) streaming event.
In particular the streaming tail never absorbs batch-path text.  (The
converse isolation direction fails: see the counterexample.) -/
theorem C3_amended_tail_only_final_appends (rate hop : ℕ) (rid : String)
    (st : SessionState) (ev : SessionEvent) :
    (sessionStep rate hop rid st ev).realtimeTail = st.realtimeTail ∨
    (sessionStep rate hop rid st ev).realtimeTail = "" ∨
    ((∃ r t, ev = .rtDone r t) ∧
      ∃ c, c ≠ "" ∧
        (sessionStep rate hop rid st ev).realtimeTail =
          boundedMerge st.realtimeTail c) := by
  rcases ev with ⟨len, o, b⟩ | ⟨rid2, meta⟩ | ⟨rid2, delta⟩ | ⟨rid2, text⟩
  · by_cases hb : st.bridgeActive
    · rcases o with _ | _ | _
      · left
        rw [show sessionStep rate hop rid st (.win len .streamed b) =
          processWin rate hop rid st len .streamed b from rfl,
          processWin_streamed rate hop rid st len b hb]
      · left
        rw [show sessionStep rate hop rid st (.win len .tooShort b) =
          processWin rate hop rid st len .tooShort b from rfl,
          processWin_tooShort rate hop rid st len b hb]
        exact (batchPath_fields _ _ _ _ _ _).2.2.2.2.2.1
      · right
        left
        rw [show sessionStep rate hop rid st (.win len .errored b) =
          processWin rate hop rid st len .errored b from rfl,
          processWin_errored rate hop rid st len b hb]
        rw [(batchPath_fields _ _ _ _ _ _).2.2.2.2.2.1]
        rfl
    · left
      have hb2 : st.bridgeActive = false := by
        simpa using hb
      rw [show sessionStep rate hop rid st (.win len o b) =
        processWin rate hop rid st len o b from rfl,
        processWin_inactive rate hop rid st len o b hb2]
      exact (batchPath_fields _ _ _ _ _ _).2.2.2.2.2.1
  · left
    by_cases hb : st.bridgeActive
    · simp [sessionStep, hb, processRtEvent]
    · simp [sessionStep, hb]
  · left
    by_cases hb : st.bridgeActive
    · simp only [sessionStep, if_pos hb, processRtEvent]
      by_cases h2 : rid2 = ""
      · simp [h2]
      · simp only [if_neg h2]
        rcases hl : lookupResponse st.responses rid2 with _ | ⟨m, t⟩
        · simp
        · simp only []
          exact handleRealtimeTranscript_tail_nonfinal _ m (t ++ delta)
    · simp [sessionStep, hb]
  · by_cases hb : st.bridgeActive
    · simp only [sessionStep, if_pos hb, processRtEvent]
      by_cases h2 : rid2 = ""
      · left
        simp [h2]
      · simp only [if_neg h2]
        rcases handleRealtimeTranscript_tail_final
          { st with responses := (popResponse st.responses rid2).1 }
          (popResponse st.responses rid2).2.1
          (if text = "" then (popResponse st.responses rid2).2.2 else text)
          with hu | ⟨c, hc1, hc2⟩
        · left
          exact hu
        · right
          right
          exact ⟨⟨rid2, text, rfl⟩, c, hc1, hc2⟩
    · left
      simp [sessionStep, hb]

/-- C3 counterexample: the two prompt tails are not isolated.  In this
session the only batch invocation (for chunk 2) receives the prompt
`"hello"`, a text that was accumulated exclusively on the streaming path
(no batch transcription precedes it): after a streamed window the worker's
`prompt_text` is set to `_current_prompt_tail()`, so streaming text becomes
the prompt context of the batch path. -/
theorem C3_counterexample_prompt_leak :
    (runSession 16000 32000 "rec" true evsC3).batchCalls =
      [(2, some "hello")] := by
  decide

/-- The batch text of a window does not depend on the prompt handed to the
provider. -/
theorem batchText_prompt_irrel (path : String) (p1 p2 : Option String)
    (b : BatchBehavior) : batchText path p1 b = batchText path p2 b := by
  rcases b with p | msg
  · rcases p with _ | m | raw <;> rfl
  · rfl

theorem runSteps_batch_segments (rate hop : ℕ) (rid : String) :
    ∀ (ws : List (ℕ × SendOutcome × BatchBehavior)) (st : SessionState),
      st.bridgeActive = false →
      (runSteps rate hop rid st (mkWins ws)).segments =
        st.segments ++ expectedBatchSegments rate hop rid st.nextChunk ws := by
  intro ws
  induction ws with
  | nil =>
    intro st _
    simp [runSteps, mkWins, expectedBatchSegments]
  | cons w ws ih =>
    intro st hb
    rcases w with ⟨len, o, b⟩
    have hstep : runSteps rate hop rid st (mkWins ((len, o, b) :: ws)) =
        runSteps rate hop rid
          (batchPath rid st st.nextChunk (winStartMs rate hop st.nextChunk)
            (winEndMs rate hop st.nextChunk len) b) (mkWins ws) := by
      simp [runSteps, mkWins, sessionStep,
        processWin_inactive rate hop rid st len o b hb]
    obtain ⟨f1, f2, f3, f4, f5, f6, f7, f8⟩ :=
      batchPath_fields rid st st.nextChunk (winStartMs rate hop st.nextChunk)
        (winEndMs rate hop st.nextChunk len) b
    have hseg : (batchPath rid st st.nextChunk
        (winStartMs rate hop st.nextChunk)
        (winEndMs rate hop st.nextChunk len) b).segments =
        st.segments ++ [batchSegmentAt rate hop rid st.nextChunk len b] := by
      simp only [batchPath, batchSegmentAt]
      rw [batchText_prompt_irrel (chunkFileName st.nextChunk) st.promptText none b]
    rw [hstep, ih _ (f1.trans hb), hseg, f5]
    simp [expectedBatchSegments, List.append_assoc]

theorem expectedBatchSegments_flags (rate hop : ℕ) (rid : String) :
    ∀ (ws : List (ℕ × SendOutcome × BatchBehavior)) (idx : ℕ),
      ∀ seg ∈ expectedBatchSegments rate hop rid idx ws,
        seg.finalized = false ∧ seg.recording_id = rid := by
  intro ws
  induction ws with
  | nil =>
    intro idx seg hseg
    simp [expectedBatchSegments] at hseg
  | cons w ws ih =>
    intro idx seg hseg
    rcases w with ⟨len, o, b⟩
    simp only [expectedBatchSegments, List.mem_cons] at hseg
    rcases hseg with hseg | hseg
    · subst hseg
      exact ⟨rfl, rfl⟩
    · exact ih (idx + 1) seg hseg

/-- C5 counterexample: a batch-path segment is not created finalized.  A
one-window batch session persists its segment with `finalized = false`
(the `LiveSegment` constructed by `_process_window` omits `finalized`, whose
database default is `False`); segments only become finalized at Stop via
`_finalize_segments`. -/
theorem C5_counterexample_created_unfinalized :
    ((runSession 16000 32000 "rec" false
      [.win 64000 .tooShort (.viaProvider (.returned "alpha"))]).segments.map
        Segment.finalized) = [false] := by
  decide

/-- C5 (amended): every batch-path segment is created with
`finalized = false`, its text and mocked flag fixed by that window's
transcription outcome alone (success: transcript with `mocked = false`;
failure or empty: placeholder with `mocked = true`); the batch path never
rewrites a segment after creating it (the final table equals the pointwise
creation rows); and the Stop-time bulk finalize marks every session row
`finalized = true`. -/
theorem C5_amended_batch_segments_unfinalized_until_stop (rate hop : ℕ)
    (rid : String) (ws : List (ℕ × SendOutcome × BatchBehavior)) :
    (runSession rate hop rid false (mkWins ws)).segments =
      expectedBatchSegments rate hop rid 0 ws ∧
    (∀ seg ∈ (runSession rate hop rid false (mkWins ws)).segments,
      seg.finalized = false) ∧
    (∀ seg ∈ finalizeSegments rid
        (runSession rate hop rid false (mkWins ws)).segments,
      seg.finalized = true) := by
  have h1 : (runSession rate hop rid false (mkWins ws)).segments =
      expectedBatchSegments rate hop rid 0 ws := by
    have := runSteps_batch_segments rate hop rid ws (initialState rid false) rfl
    simpa [runSession, initialState] using this
  refine ⟨h1, ?_, ?_⟩
  · intro seg hseg
    rw [h1] at hseg
    exact (expectedBatchSegments_flags rate hop rid ws 0 seg hseg).1
  · intro seg hseg
    rw [h1] at hseg
    simp only [finalizeSegments, List.mem_map] at hseg
    obtain ⟨s0, hs0, hmap⟩ := hseg
    have hrid := (expectedBatchSegments_flags rate hop rid ws 0 s0 hs0).2
    rw [← hmap, if_pos hrid]

/-- Witness for C5 (amended) at a concrete one-window session. -/
theorem C5_amended_batch_segments_unfinalized_until_stop_witness :
    (runSession 16000 32000 "rec" false
      (mkWins [(64000, .tooShort, .viaProvider (.returned "alpha"))])).segments =
      expectedBatchSegments 16000 32000 "rec" 0
        [(64000, .tooShort, .viaProvider (.returned "alpha"))] ∧
    (∀ seg ∈ (runSession 16000 32000 "rec" false
        (mkWins [(64000, .tooShort, .viaProvider (.returned "alpha"))])).segments,
      seg.finalized = false) ∧
    (∀ seg ∈ finalizeSegments "rec"
        (runSession 16000 32000 "rec" false
          (mkWins [(64000, .tooShort, .viaProvider (.returned "alpha"))])).segments,
      seg.finalized = true) :=
  C5_amended_batch_segments_unfinalized_until_stop 16000 32000 "rec"
    [(64000, .tooShort, .viaProvider (.returned "alpha"))]

/-- C4: evaluation of the batch pipeline at the failing input (the provider
returns whitespace-only text for chunk 3).  The persisted segment for chunk
3 has `mocked = true` and the placeholder text — that half of the claim
holds — but the prompt handed to chunk 4's batch transcription contains
chunk 3's placeholder `[Empty transcript]`: `transcribe_live_chunk` never
returns empty text, so `_process_window`'s empty-text guard is dead and the
placeholder is appended to the PromptTail, contradicting the claim. -/
theorem C4_empty_chunk_placeholder_pollutes_prompt :
    ((runSession 16000 32000 "rec" false
      [.win 64000 .tooShort (.viaProvider (.returned "alpha")),
       .win 64000 .tooShort (.viaProvider (.returned "bravo")),
       .win 64000 .tooShort (.viaProvider (.returned "charlie")),
       .win 64000 .tooShort (.viaProvider (.returned "   ")),
       .win 32000 .tooShort (.viaProvider (.returned "delta"))]).segments.map
        (fun seg => (seg.chunk_index, seg.text, seg.mocked)))[3]? =
      some (3, "[Empty transcript]", true) ∧
    (runSession 16000 32000 "rec" false
      [.win 64000 .tooShort (.viaProvider (.returned "alpha")),
       .win 64000 .tooShort (.viaProvider (.returned "bravo")),
       .win 64000 .tooShort (.viaProvider (.returned "charlie")),
       .win 64000 .tooShort (.viaProvider (.returned "   ")),
       .win 32000 .tooShort (.viaProvider (.returned "delta"))]).batchCalls[4]? =
      some (4, some "alpha bravo charlie [Empty transcript]") := by
  constructor
  · decide
  · decide

/-! ### Out-of-order `done` events (claim C8) -/

theorem popResponse_meta_of_lookup_none :
    ∀ (rs : List (String × RtMetadata × String)) (rid : String),
      lookupResponse rs rid = none →
      (popResponse rs rid).2.1 = emptyMetadata := by
  intro rs
  induction rs with
  | nil =>
    intro rid _
    rfl
  | cons p rest ih =>
    intro rid h
    rcases p with ⟨r, m, t⟩
    by_cases hr : r = rid
    · simp [lookupResponse, hr] at h
    · simp only [lookupResponse, if_neg hr] at h
      simp only [popResponse, if_neg hr]
      exact ih rid h

/-- C8 counterexample: a streaming `done` for a response id whose `created`
was never observed persists nothing.  The event loop pops the default
`_ResponseState(metadata={})`, whose metadata has no `recording_id`, so
`_handle_realtime_transcript` returns before touching the store: no segment
is "created fresh from the done event's metadata". -/
theorem C8_counterexample_no_segment_persisted :
    (runSession 16000 32000 "rec" true
      [.rtDone "r1" "hello"]).segments = [] := by
  decide

/-- C8 (amended): a `done` event for an untracked response id does not
crash: it is emitted with the empty default metadata, which
`_handle_realtime_transcript` discards (no recording id), persisting
nothing and leaving the streaming prompt tail unchanged.  A fresh finalized
segment is created from a response's metadata only when the `created` event
was observed: tracking a response and finishing it persists one finalized
segment built from that metadata. -/
theorem C8_amended_unknown_done_discarded :
    (∀ (rate hop : ℕ) (rid : String) (st : SessionState) (r text : String),
      lookupResponse st.responses r = none →
      (sessionStep rate hop rid st (.rtDone r text)).segments = st.segments ∧
      (sessionStep rate hop rid st (.rtDone r text)).realtimeTail =
        st.realtimeTail) ∧
    (runSession 16000 32000 "rec" true
      [.rtCreated "r0" ⟨some "rec", 2, 100, 200⟩,
       .rtDone "r0" "hello"]).segments =
      [⟨"rec", 2, 100, 200, "hello", false, true⟩] := by
  constructor
  · intro rate hop rid st r text hnone
    by_cases hb : st.bridgeActive
    · by_cases hr : r = ""
      · simp [sessionStep, hb, processRtEvent, hr]
      · have hm := popResponse_meta_of_lookup_none st.responses r hnone
        simp only [sessionStep, if_pos hb, processRtEvent, if_neg hr, hm]
        simp [handleRealtimeTranscript, emptyMetadata]
    · simp [sessionStep, hb]
  · decide

/-- Witness for C8 (amended), applying the general half at a concrete
state. -/
theorem C8_amended_unknown_done_discarded_witness :
    (sessionStep 16000 32000 "rec" (initialState "rec" true)
      (.rtDone "zz" "t")).segments = (initialState "rec" true).segments ∧
    (sessionStep 16000 32000 "rec" (initialState "rec" true)
      (.rtDone "zz" "t")).realtimeTail =
      (initialState "rec" true).realtimeTail :=
  C8_amended_unknown_done_discarded.1 16000 32000 "rec"
    (initialState "rec" true) "zz" "t" rfl

/-! ### `transcribe_live_chunk` never yields empty text (claim C9) -/

theorem transcribe_live_chunk_ne_empty (audioPath : String)
    (promptText : Option String) (provider : ProviderResult) :
    (transcribe_live_chunk audioPath promptText provider).1 ≠ "" := by
  rcases provider with _ | msg | raw
  · exact append3_ne_empty _ _ _ (by decide)
  · exact append3_ne_empty _ _ _ (by decide)
  · by_cases h : pyStrip raw = ""
    · simp [transcribe_live_chunk, h]
    · simp [transcribe_live_chunk, h]

/-- C9: `transcribe_live_chunk` never returns empty text; `mocked = true`
exactly when the module is unavailable, the provider raised, or the raw
transcript strips to empty, otherwise the stripped non-empty transcript
comes back with `mocked = false`; and consequently the batch text of any
window is never empty, so `_process_window`'s empty-text branch (which
skips the PromptTail append) is unreachable on the batch path. -/
theorem C9_transcribe_live_chunk_never_empty (audioPath : String)
    (promptText : Option String) (provider : ProviderResult) :
    (transcribe_live_chunk audioPath promptText provider).1 ≠ "" ∧
    ((transcribe_live_chunk audioPath promptText provider).2 = true ↔
      provider = .unavailable ∨ (∃ m, provider = .raised m) ∨
      (∃ raw, provider = .returned raw ∧ pyStrip raw = "")) ∧
    ((transcribe_live_chunk audioPath promptText provider).2 = false →
      ∃ raw, provider = .returned raw ∧ pyStrip raw ≠ "" ∧
        (transcribe_live_chunk audioPath promptText provider).1 = pyStrip raw) ∧
    (∀ (idx : ℕ) (prompt : Option String) (b : BatchBehavior),
      (batchText (chunkFileName idx) prompt b).1 ≠ "") := by
  refine ⟨transcribe_live_chunk_ne_empty audioPath promptText provider, ?_, ?_, ?_⟩
  · rcases provider with _ | msg | raw
    · simp [transcribe_live_chunk]
    · simp [transcribe_live_chunk]
    · by_cases h : pyStrip raw = ""
      · constructor
        · intro
          exact Or.inr (Or.inr ⟨raw, rfl, h⟩)
        · intro
          simp [transcribe_live_chunk, h]
      · constructor
        · intro htrue
          exfalso
          simp [transcribe_live_chunk, h] at htrue
        · intro hor
          rcases hor with h1 | ⟨m, h1⟩ | ⟨raw2, h1, h2⟩
          · exact absurd h1 (by simp)
          · exact absurd h1 (by simp)
          · injection h1 with hh
            subst hh
            exact absurd h2 h
  · intro hfalse
    rcases provider with _ | msg | raw
    · simp [transcribe_live_chunk] at hfalse
    · simp [transcribe_live_chunk] at hfalse
    · by_cases h : pyStrip raw = ""
      · simp [transcribe_live_chunk, h] at hfalse
      · exact ⟨raw, rfl, h, by simp [transcribe_live_chunk, h]⟩
  · intro idx prompt b
    rcases b with p | msg
    · show (transcribe_live_chunk (chunkFileName idx) prompt p).1 ≠ ""
      exact transcribe_live_chunk_ne_empty (chunkFileName idx) prompt p
    · exact append3_ne_empty _ _ _ (by decide)

/-- Witness for C9 at concrete arguments. -/
theorem C9_transcribe_live_chunk_never_empty_witness :
    (transcribe_live_chunk "a.wav" none (.returned " hi ")).1 ≠ "" ∧
    ((transcribe_live_chunk "a.wav" none (.returned " hi ")).2 = true ↔
      ProviderResult.returned " hi " = .unavailable ∨
      (∃ m, ProviderResult.returned " hi " = .raised m) ∨
      (∃ raw, ProviderResult.returned " hi " = .returned raw ∧
        pyStrip raw = "")) ∧
    ((transcribe_live_chunk "a.wav" none (.returned " hi ")).2 = false →
      ∃ raw, ProviderResult.returned " hi " = .returned raw ∧
        pyStrip raw ≠ "" ∧
        (transcribe_live_chunk "a.wav" none (.returned " hi ")).1 =
          pyStrip raw) ∧
    (∀ (idx : ℕ) (prompt : Option String) (b : BatchBehavior),
      (batchText (chunkFileName idx) prompt b).1 ≠ "") :=
  C9_transcribe_live_chunk_never_empty "a.wav" none (.returned " hi ")

/-- C7 counterexample: a service state with no recorder thread (so no
session is Active and `status()` reports "idle") but a cached error.  There
`stop()` raises `RuntimeError(cached_error)` — not the idle error — and
mutates the state (it clears the cached error and the recording id). -/
theorem C7_counterexample_errored_stop_mutates :
    statusOf ⟨none, none, some "boom", some "rec-1", none, "", false, false⟩ =
      "idle" ∧
    (stopDispatch
      ⟨none, none, some "boom", some "rec-1", none, "", false, false⟩).1 =
      .raisedRuntime "boom" ∧
    (stopDispatch
      ⟨none, none, some "boom", some "rec-1", none, "", false, false⟩).1 ≠
      .raisedIdle ∧
    (stopDispatch
      ⟨none, none, some "boom", some "rec-1", none, "", false, false⟩).2 ≠
      ⟨none, none, some "boom", some "rec-1", none, "", false, false⟩ := by
  refine ⟨rfl, rfl, by decide, by decide⟩

/-- C7 (amended): `stop()` raises the idle error and leaves every field of
the service untouched exactly on the strictly idle states — no recorder
thread, no cached error and no cached result.  (With a cached error it
raises `RuntimeError` and consumes the error; with a cached result it
returns the result and consumes it.) -/
theorem C7_amended_stop_strictly_idle_no_mutation (s : RecorderState)
    (h1 : s.threadAlive = none) (h2 : s.lastError = none)
    (h3 : s.lastResult = none) :
    stopDispatch s = (.raisedIdle, s) := by
  simp [stopDispatch, h1, h2, h3]

/-- Witness for C7 (amended) at the fresh idle state. -/
theorem C7_amended_stop_strictly_idle_no_mutation_witness :
    stopDispatch ⟨none, none, none, none, none, "", false, false⟩ =
      (.raisedIdle, ⟨none, none, none, none, none, "", false, false⟩) :=
  C7_amended_stop_strictly_idle_no_mutation
    ⟨none, none, none, none, none, "", false, false⟩ rfl rfl rfl

/-- C10: `last_error()` is consuming — it returns the stored error, clears
it in the same operation (so an immediate second call returns `none`), and
modifies no other field of the service state. -/
theorem C10_last_error_consuming (s : RecorderState) :
    (last_error s).1 = s.lastError ∧
    (last_error (last_error s).2).1 = none ∧
    (last_error s).2 = { s with lastError := none } := by
  exact ⟨rfl, rfl, rfl⟩

/-- Witness for C10 at a concrete state. -/
theorem C10_last_error_consuming_witness :
    (last_error ⟨none, none, some "oops", none, none, "", false, false⟩).1 =
      some "oops" ∧
    (last_error
      (last_error
        ⟨none, none, some "oops", none, none, "", false, false⟩).2).1 =
      none ∧
    (last_error ⟨none, none, some "oops", none, none, "", false, false⟩).2 =
      ⟨none, none, none, none, none, "", false, false⟩ :=
  C10_last_error_consuming ⟨none, none, some "oops", none, none, "", false, false⟩

end Whisp

